import Mathlib

/-!
Verification of the Verto file-management application's core client-side logic.

The repository is a TypeScript single-page application.  We give a shallow
embedding of its pure computational kernel in Lean:

* JS strings are modelled as Lean `String` (a sequence of Unicode scalar
  values); JS numbers are modelled as `ℚ` (JS arithmetic on the values
  appearing here is exact), with the one degenerate case `0/0` (JS `NaN`)
  mapped to `0` by rational division — every theorem touching that case
  treats it explicitly.
* Remote calls (`blink.db.*`, `blink.ai.*`) are modelled by passing their
  results in as explicit inputs, with a fallible call represented as an
  `Except` value; a thrown error is the `Except.error` case, and a
  `try`/`catch` block becomes a `match` on that value.
* Database rows are structures carrying exactly the fields the embedded
  code reads or writes.
-/

/-! ## Version labels: `AISimilarityService.incrementVersion` and
`FileUpload.generateVersionLabel` -/

/-- Decimal value of a digit string, as computed by JS `Number` on an
all-digit string (exact for the sizes considered here). -/
def natOfDigits (ds : List Char) : Nat :=
  ds.foldl (fun n c => n * 10 + (c.toNat - '0'.toNat)) 0

/-- Parse a maximal nonempty run of decimal digits (regex `\d+`, greedy). -/
def digitRun (l : List Char) : Option (Nat × List Char) :=
  let ds := l.takeWhile Char.isDigit
  if ds = [] then none else some (natOfDigits ds, l.dropWhile Char.isDigit)

/-- Try to match the regex `v(\d+)\.(\d+)\.(\d+)` anchored at the start of
`l`, returning the three captured numbers.  Backtracking inside `\d+` can
never create a match that the greedy parse misses (a shortened digit run is
followed by a digit, never by `.`), so this anchored match is exact. -/
def matchVAt (l : List Char) : Option (Nat × Nat × Nat) :=
  match l with
  | 'v' :: rest =>
    match digitRun rest with
    | none => none
    | some (a, r1) =>
      match r1 with
      | '.' :: r2 =>
        match digitRun r2 with
        | none => none
        | some (b, r3) =>
          match r3 with
          | '.' :: r4 =>
            match digitRun r4 with
            | none => none
            | some (c, _) => some (a, b, c)
          | _ => none
      | _ => none
  | _ => none

/-- Leftmost match of `v(\d+)\.(\d+)\.(\d+)` in a string, as JS
`String.prototype.match` finds it: positions are tried left to right. -/
def findVMatch : List Char → Option (Nat × Nat × Nat)
  | [] => none
  | c :: rest =>
    match matchVAt (c :: rest) with
    | some r => some r
    | none => findVMatch rest

/-- The part of `l` before the first occurrence of `sep`, or all of `l`
when `sep` does not occur: JS `l.split(sep)[0]` for a nonempty separator. -/
def beforeFirst (sep : List Char) : List Char → List Char
  | [] => []
  | c :: rest =>
    if sep.isPrefixOf (c :: rest) then [] else c :: beforeFirst sep rest

/-- JS `s.split(sep)[0]` on strings. -/
def beforeFirstStr (sep s : String) : String :=
  String.mk (beforeFirst sep.data s.data)

/-- The `incrementType` parameter of `AISimilarityService.incrementVersion`. -/
inductive IncrementType where
  | major
  | minor
  | patch
deriving DecidableEq

/-- `AISimilarityService.incrementVersion`: extract `vX.Y.Z` from the
current label; if absent, append `".1"` to the whole label; otherwise bump
the selected component and re-assemble with everything before `-v` as the
retained label stem. -/
def incrementVersion (currentVersion : String) (incrementType : IncrementType) : String :=
  match findVMatch currentVersion.data with
  | none => currentVersion ++ ".1"
  | some (major, minor, patch) =>
    let bumped : Nat × Nat × Nat :=
      match incrementType with
      | .major => (major + 1, 0, 0)
      | .minor => (major, minor + 1, 0)
      | .patch => (major, minor, patch + 1)
    let stem := beforeFirstStr "-v" currentVersion
    stem ++ "-v" ++ toString bumped.1 ++ "." ++ toString bumped.2.1 ++ "." ++ toString bumped.2.2

/-- Fields of a `files` row read by `FileUpload.generateVersionLabel`.
`sequential_number` is nullable in the store, hence `Option`. -/
structure GVFileRow where
  id : String
  version_label : String
  sequential_number : Option Nat
deriving DecidableEq

/-- JS `n.toString().padStart(2, '0')`. -/
def pad2 (n : Nat) : String :=
  let s := toString n
  if s.length < 2 then String.mk (List.replicate (2 - s.length) '0') ++ s else s

/-- The "no prior file" branch of `FileUpload.generateVersionLabel`:
`existingFiles` is the result of listing the organization's files ordered
by `sequential_number` descending with limit 1.  JS truthiness makes both a
missing row, a null field and a zero field fall back to sequence 1. -/
def nextSeqLabel (existingFiles : List GVFileRow) : String :=
  let nextSeq : Nat :=
    match existingFiles.head? with
    | some g =>
      match g.sequential_number with
      | some (n + 1) => n + 2
      | _ => 1
    | none => 1
  "VT-" ++ pad2 nextSeq ++ "-v1.0.0"

/-- `FileUpload.generateVersionLabel` (the non-error path), as a function of
the two remote list results: the looked-up existing file (when an
`existingFileId` was passed and found) and the organization's files ordered
by `sequential_number` descending.  When the existing file's label has no
`vX.Y.Z` part, control falls through to the sequential branch. -/
def generateVersionLabel (existingFile : Option GVFileRow)
    (orgFilesDesc : List GVFileRow) : String :=
  match existingFile with
  | some f =>
    match findVMatch f.version_label.data with
    | some (major, minor, patch) =>
      let stem := beforeFirstStr "-v" f.version_label
      stem ++ "-v" ++ toString major ++ "." ++ toString minor ++ "." ++ toString (patch + 1)
    | none => nextSeqLabel orgFilesDesc
  | none => nextSeqLabel orgFilesDesc

/-! ## File-size formatters (three copies: `FileUpload`, `VersionHistory`,
`Dashboard`) -/

/-- Fuel-based floor of the base-`b` logarithm of `n` (for `b ≥ 2`,
`n ≥ 1` this is the exact value of `Math.floor(Math.log n / Math.log b)`;
the formatters only reach it with `n ≥ 1`). -/
def logFloorAux (b : Nat) : Nat → Nat → Nat
  | 0, _ => 0
  | fuel + 1, n => if n < b then 0 else logFloorAux b fuel (n / b) + 1

/-- Floor of `log_b n`. -/
def logFloor (b n : Nat) : Nat := logFloorAux b n n

/-- JS `parseFloat(q.toFixed(2))` rendered back to a string: round to two
decimal places (half up; every value reached in this code is nonnegative,
and the rounding is exact at the claims' inputs), then drop a trailing
zero fraction. -/
def fixed2String (q : ℚ) : String :=
  let r : Nat := (⌊q * 100 + 1 / 2⌋).toNat
  let ip := r / 100
  let fr := r % 100
  if fr = 0 then toString ip
  else if fr % 10 = 0 then toString ip ++ "." ++ toString (fr / 10)
  else if fr < 10 then toString ip ++ ".0" ++ toString fr
  else toString ip ++ "." ++ toString fr

/-- The `sizes` array shared by all three formatter copies. -/
def sizesArr : List String := ["Bytes", "KB", "MB", "GB"]

/-- JS `sizes[i]`: an out-of-range index yields `undefined`, which string
concatenation renders as `"undefined"`. -/
def sizesAt (i : Nat) : String := sizesArr.getD i "undefined"

/-- `formatFileSize` as written in `FileUpload.tsx` (byte counts here are
the natural-number `file.size` values). -/
def formatFileSizeUpload (bytes : Nat) : String :=
  if bytes = 0 then "0 Bytes"
  else
    let k := 1024
    let i := logFloor k bytes
    fixed2String ((bytes : ℚ) / (k : ℚ) ^ i) ++ " " ++ sizesAt i

/-- `formatFileSize` as written in `VersionHistory.tsx` (textually the same
function, duplicated in the source). -/
def formatFileSizeHistory (bytes : Nat) : String :=
  if bytes = 0 then "0 Bytes"
  else
    let k := 1024
    let i := logFloor k bytes
    fixed2String ((bytes : ℚ) / (k : ℚ) ^ i) ++ " " ++ sizesAt i

/-- A JS value reaching the Dashboard's `formatFileSize` parameter
(`number | string | null | undefined`); `num` carries a finite number. -/
inductive JSVal where
  | num (q : ℚ)
  | str (s : String)
  | null
  | undef
deriving DecidableEq

/-- A JS `Number` value as relevant here: a finite value (kept as an exact
rational), positive or negative infinity, or `NaN`.  JS rounds finite
values to the nearest double and overflows huge exponents to infinity;
that never changes the NaN-ness the Dashboard guard reads, which is all
any claim depends on. -/
inductive JsNum where
  | finite (q : ℚ)
  | posInf
  | negInf
  | nan
deriving DecidableEq

/-- JS `StrWhiteSpaceChar`: the characters `Number(string)` trims from
both ends (ASCII whitespace, NBSP, Ogham space, the Unicode space
separators, LS/PS, narrow/medium spaces, ideographic space and the
BOM). -/
def isJsWhitespace (c : Char) : Bool :=
  c == ' ' || c == '\t' || c == '\n' || c == '\r' ||
  c.toNat == 0xB || c.toNat == 0xC || c.toNat == 0xA0 || c.toNat == 0x1680 ||
  (decide (0x2000 ≤ c.toNat) && decide (c.toNat ≤ 0x200A)) ||
  c.toNat == 0x2028 || c.toNat == 0x2029 || c.toNat == 0x202F ||
  c.toNat == 0x205F || c.toNat == 0x3000 || c.toNat == 0xFEFF

/-- Digit value of `c` in a non-decimal radix (2, 8 or 16), when valid. -/
def radixDigitVal (radix : Nat) (c : Char) : Option Nat :=
  let v : Option Nat :=
    if c.isDigit then some (c.toNat - '0'.toNat)
    else if 'a' ≤ c ∧ c ≤ 'f' then some (c.toNat - 'a'.toNat + 10)
    else if 'A' ≤ c ∧ c ≤ 'F' then some (c.toNat - 'A'.toNat + 10)
    else none
  match v with
  | some n => if n < radix then some n else none
  | none => none

/-- A nonempty all-valid digit string in the given radix, as a number. -/
def parseRadix (radix : Nat) (l : List Char) : Option Nat :=
  if l ≠ [] ∧ l.all (fun c => (radixDigitVal radix c).isSome) then
    some (l.foldl (fun n c => n * radix + (radixDigitVal radix c).getD 0) 0)
  else none

/-- The optional `ExponentPart` (`[eE] [+-]? DecimalDigits`) closing a JS
decimal literal: scales the mantissa by `10 ^ exponent`; any other
trailing text makes the whole literal invalid. -/
def parseExpPart (mant : ℚ) (l : List Char) : Option ℚ :=
  match l with
  | [] => some mant
  | c :: r =>
    if c = 'e' ∨ c = 'E' then
      let signAndRest : Int × List Char :=
        match r with
        | '+' :: r2 => (1, r2)
        | '-' :: r2 => (-1, r2)
        | r2 => (1, r2)
      if signAndRest.2 ≠ [] ∧ signAndRest.2.all Char.isDigit then
        some (mant * 10 ^ (signAndRest.1 * natOfDigits signAndRest.2))
      else none
    else none

/-- JS `StrUnsignedDecimalLiteral` without its `Infinity` production:
`DecimalDigits [. DecimalDigits?] ExponentPart?` or
`. DecimalDigits ExponentPart?`. -/
def parseDecimalLit (l : List Char) : Option ℚ :=
  let ds := l.takeWhile Char.isDigit
  let r1 := l.dropWhile Char.isDigit
  match r1 with
  | [] => if ds = [] then none else some (natOfDigits ds)
  | '.' :: r2 =>
    let fs := r2.takeWhile Char.isDigit
    let r3 := r2.dropWhile Char.isDigit
    if ds = [] ∧ fs = [] then none
    else parseExpPart ((natOfDigits ds : ℚ) + (natOfDigits fs : ℚ) / 10 ^ fs.length) r3
  | _ => if ds = [] then none else parseExpPart (natOfDigits ds) r1

/-- A `0x`/`0o`/`0b` radix literal body (sign not allowed by JS). -/
def jsRadixNum (radix : Nat) (l : List Char) : JsNum :=
  match parseRadix radix l with
  | some n => JsNum.finite n
  | none => JsNum.nan

/-- An optionally signed `StrDecimalLiteral`: `Infinity` (exact,
case-sensitive) or an unsigned decimal literal, with the sign applied to
the value. -/
def jsSignedNum (l : List Char) : JsNum :=
  let signAndRest : Bool × List Char :=
    match l with
    | '-' :: r => (true, r)
    | '+' :: r => (false, r)
    | r => (false, r)
  if signAndRest.2 = "Infinity".data then
    if signAndRest.1 then JsNum.negInf else JsNum.posInf
  else
    match parseDecimalLit signAndRest.2 with
    | some q => JsNum.finite (if signAndRest.1 then -q else q)
    | none => JsNum.nan

/-- JS `Number(string)`, following the ECMAScript `StringNumericLiteral`
grammar: trim whitespace from both ends; the empty remainder converts to
`0`; `0x`/`0X`, `0o`/`0O`, `0b`/`0B` radix literals (no sign); otherwise
an optionally signed decimal literal or `Infinity`; everything else is
`NaN`.  Exponent, hex, whitespace-padded and `Infinity` strings are
therefore numeric (not `NaN`), exactly as the Dashboard guard's
`isNaN(Number(bytes))` sees them. -/
def jsStringToNumber (s : String) : JsNum :=
  let trimmed := ((s.data.dropWhile isJsWhitespace).reverse.dropWhile
    isJsWhitespace).reverse
  match trimmed with
  | [] => JsNum.finite 0
  | '0' :: 'x' :: rest => jsRadixNum 16 rest
  | '0' :: 'X' :: rest => jsRadixNum 16 rest
  | '0' :: 'o' :: rest => jsRadixNum 8 rest
  | '0' :: 'O' :: rest => jsRadixNum 8 rest
  | '0' :: 'b' :: rest => jsRadixNum 2 rest
  | '0' :: 'B' :: rest => jsRadixNum 2 rest
  | l => jsSignedNum l

/-- JS `Number(v)` on the values the Dashboard formatter can receive:
`Number(null) = 0`, `Number(undefined) = NaN`. -/
def jsNumber : JSVal → JsNum
  | .num q => JsNum.finite q
  | .str s => jsStringToNumber s
  | .null => JsNum.finite 0
  | .undef => JsNum.nan

/-- Floor of `log_b q` over the positive rationals, extending `logFloor`
(the value of `Math.floor(Math.log q / Math.log b)`).  The Dashboard only
reaches it with `q > 0`; the `q ≤ 0` branch returns an arbitrary total
value and is unreachable from the formatter. -/
def qLogFloor (b : Nat) (q : ℚ) : Int :=
  if 1 ≤ q then (logFloor b (⌊q⌋).toNat : Int)
  else if 0 < q then -(Int.ofNat (logFloorAux b (⌈1 / q⌉).toNat ((⌈1 / q⌉).toNat - 1)) + 1)
  else 0

/-- `formatFileSize` as written in the Dashboard page: a guard maps null,
undefined, the empty string and NaN-converting input to `"0 Bytes"`, then
the rendering runs on `Number(bytes)`.  For a negative or infinite
number the `Math.log`/`Math.pow` chain degenerates to `NaN` and the
`sizes` lookup to `undefined`, so JS renders `"NaN undefined"`; the model
states that result explicitly on those branches. -/
def formatFileSizeDashboard (bytes : JSVal) : String :=
  if bytes = JSVal.null ∨ bytes = JSVal.undef ∨ bytes = JSVal.str "" ∨
      jsNumber bytes = JsNum.nan
  then "0 Bytes"
  else
    match jsNumber bytes with
    | JsNum.finite numBytes =>
      if numBytes = 0 then "0 Bytes"
      else if numBytes < 0 then "NaN undefined"
      else
        let k := 1024
        let i := qLogFloor k numBytes
        fixed2String (numBytes / (k : ℚ) ^ i) ++ " " ++
          (if 0 ≤ i then sizesAt i.toNat else "undefined")
    | _ => "NaN undefined"

/-! ## Edit distance: `levenshteinDistance` and `calculateSimilarity`
(`FileUpload.tsx`) -/

/-- Textbook (standard) Levenshtein edit distance between two character
lists, by recursion on the first characters.  This is the reference
definition the spec's `editDistance(s1,s2)` denotes. -/
def lev : List Char → List Char → Nat
  | [], ys => ys.length
  | x :: xs, [] => (x :: xs).length
  | x :: xs, y :: ys =>
    if x = y then lev xs ys
    else 1 + min (lev xs ys) (min (lev (x :: xs) ys) (lev xs (y :: ys)))
termination_by xs ys => xs.length + ys.length

/-- Cell `matrix[i][j]` of the dynamic-programming matrix built by
`levenshteinDistance(str1, str2)` in `FileUpload.tsx`: row index `i` runs
over `str2`, column index `j` over `str1`; the character comparison is
`str2.charAt(i-1) === str1.charAt(j-1)` and the interior cell is
`min(matrix[i-1][j-1]+1, matrix[i][j-1]+1, matrix[i-1][j]+1)`.  The `getD`
default is never read: the code only compares in-range characters. -/
def levCell (s1 s2 : List Char) : Nat → Nat → Nat
  | 0, j => j
  | i + 1, 0 => i + 1
  | i + 1, j + 1 =>
    if s2.getD i 'a' = s1.getD j 'a' then levCell s1 s2 i j
    else
      min (levCell s1 s2 i j + 1)
        (min (levCell s1 s2 (i + 1) j + 1) (levCell s1 s2 i (j + 1) + 1))
termination_by i j => i + j

/-- The code's `levenshteinDistance(str1, str2)`: the DP matrix's final
entry `matrix[str2.length][str1.length]`. -/
def levenshteinDistance (str1 str2 : String) : Nat :=
  levCell str1.data str2.data str2.data.length str1.data.length

/-- `calculateSimilarity` from `FileUpload.tsx`.  With equal lengths the
code picks `str2` as `longer`.  JS division is modelled by rational
division; the single degenerate case (both strings empty) divides 0 by 0,
which JS renders as `NaN` and the rational model as `0` — both differ
from every ordinary similarity value. -/
def calculateSimilarity (str1 str2 : String) : ℚ :=
  let longer := if str1.length > str2.length then str1 else str2
  let shorter := if str1.length > str2.length then str2 else str1
  ((longer.length : ℚ) - (levenshteinDistance longer shorter : ℚ)) / (longer.length : ℚ)

/-- Modelled from the spec's words (§4.1a): `similarity =
(max(len1,len2) - editDistance(s1,s2)) / max(len1,len2)` with
`editDistance` the standard Levenshtein distance. -/
def similaritySpec (s1 s2 : String) : ℚ :=
  ((max s1.length s2.length : ℚ) - (lev s1.data s2.data : ℚ)) /
    ((max s1.length s2.length : ℚ))

/-! ## Similarity search: `AISimilarityService.findSimilarFiles` and
`FileUpload.analyzeAndFindSimilarFiles` -/

/-- Fields of a `files` row read by the two similarity code paths. -/
structure DbFileRow where
  id : String
  name : String
  version_label : String
  uploaded_by : String
  created_at : String
  file_type : String
deriving DecidableEq

/-- The `SimilarityResult` record of `aiSimilarityService.ts`. -/
structure SimilarityResult where
  fileId : String
  fileName : String
  versionLabel : String
  uploadedBy : String
  createdAt : String
  similarityScore : ℚ
  similarityReason : String
  contentSimilarity : ℚ
  nameSimilarity : ℚ
  aiAnalysis : String
deriving DecidableEq

/-- One entry of the structured response `blink.ai.generateObject` returns
to `findSimilarFiles` (`similarities` array). -/
structure AISimilarityEntry where
  fileIndex : Nat
  contentSimilarity : ℚ
  nameSimilarity : ℚ
  overallSimilarity : ℚ
  reason : String
  shouldVersion : Bool
deriving DecidableEq

/-- The `FileAnalysis` record; `extractedMetadata` (a JS object) is
modelled as a key/value list with stringified values. -/
structure FileAnalysis where
  contentType : String
  keyTerms : List String
  documentPurpose : String
  suggestedCategory : String
  extractedMetadata : List (String × String)
deriving DecidableEq

/-- JS `s.includes(sub)` (substring containment). -/
def jsIncludes (s sub : String) : Bool := decide (sub.data <:+: s.data)

/-- JS `Math.round` (round half toward positive infinity). -/
def jsRound (q : ℚ) : Int := ⌊q + 1 / 2⌋

/-- Descending-by-score sort, JS
`results.sort((a, b) => b.similarityScore - a.similarityScore)`
(stable, as specified since ES2019). -/
def sortByScoreDesc (results : List SimilarityResult) : List SimilarityResult :=
  results.mergeSort (fun a b => decide (b.similarityScore ≤ a.similarityScore))

/-- `AISimilarityService.findSimilarFiles`, as a function of its two remote
call results: the organization's file list and the AI similarity response.
The surrounding `try`/`catch` turns any thrown error into `[]`. -/
def findSimilarFiles (existingFilesResult : Except String (List DbFileRow))
    (aiResult : Except String (List AISimilarityEntry)) : List SimilarityResult :=
  match existingFilesResult with
  | .error _ => []
  | .ok existingFiles =>
    if existingFiles.length = 0 then []
    else
      match aiResult with
      | .error _ => []
      | .ok sims =>
        let results := sims.filterMap fun s =>
          if s.overallSimilarity > (3 / 10 : ℚ) ∧ s.shouldVersion = true then
            match existingFiles.get? s.fileIndex with
            | some existingFile =>
              some { fileId := existingFile.id
                     fileName := existingFile.name
                     versionLabel := existingFile.version_label
                     uploadedBy := existingFile.uploaded_by
                     createdAt := existingFile.created_at
                     similarityScore := s.overallSimilarity
                     similarityReason := s.reason
                     contentSimilarity := s.contentSimilarity
                     nameSimilarity := s.nameSimilarity
                     aiAnalysis := "AI determined this is likely the same document type. " ++ s.reason }
            | none => none
          else none
        sortByScoreDesc results

/-- The fields of the browser `File` object read by
`analyzeAndFindSimilarFiles`. -/
structure UploadFileMeta where
  name : String
  type : String
  size : Nat
deriving DecidableEq

/-- The "simplified analysis" object built at the top of
`analyzeAndFindSimilarFiles` (the MIME-type conditional is written twice
in the source, once for `contentType` and once inside `documentPurpose`). -/
def uploadAnalysis (file : UploadFileMeta) : FileAnalysis :=
  let ct := if jsIncludes file.type "pdf" then "PDF Document"
    else if file.type.startsWith "image/" then "Image File"
    else if jsIncludes file.type "document" then "Text Document"
    else "File"
  { contentType := ct
    keyTerms := [beforeFirstStr "." file.name]
    documentPurpose := ct ++ " for organization"
    suggestedCategory := "general"
    extractedMetadata :=
      [("fileName", file.name), ("fileSize", toString file.size), ("fileType", file.type)] }

/-- The analysis object returned from the `catch` branch of
`analyzeAndFindSimilarFiles`. -/
def fallbackAnalysis (file : UploadFileMeta) : FileAnalysis :=
  { contentType := "File"
    keyTerms := [file.name]
    documentPurpose := "Document file"
    suggestedCategory := "general"
    extractedMetadata := [] }

/-- `FileUpload.analyzeAndFindSimilarFiles`, as a function of the remote
file-list result (its only fallible call).  Character lowering models JS
`toLowerCase` (they agree on ASCII names).  A thrown error is caught and
the default analysis plus an empty similar-file list is returned. -/
def analyzeAndFindSimilarFiles (file : UploadFileMeta)
    (existingFilesResult : Except String (List DbFileRow)) :
    FileAnalysis × List SimilarityResult :=
  match existingFilesResult with
  | .error _ => (fallbackAnalysis file, [])
  | .ok existingFiles =>
    let analysis := uploadAnalysis file
    let fileName := file.name.toLower
    let fileBaseName := beforeFirstStr "." fileName
    let similarFiles := existingFiles.filterMap fun existingFile =>
      let existingName := existingFile.name.toLower
      let existingBaseName := beforeFirstStr "." existingName
      let nameSimilarity := calculateSimilarity fileBaseName existingBaseName
      if nameSimilarity > 1 / 2 then
        some { fileId := existingFile.id
               fileName := existingFile.name
               versionLabel := existingFile.version_label
               uploadedBy := existingFile.uploaded_by
               createdAt := existingFile.created_at
               similarityScore := nameSimilarity
               similarityReason :=
                 "Similar file name (" ++ toString (jsRound (nameSimilarity * 100)) ++ "% match)"
               contentSimilarity := nameSimilarity
               nameSimilarity := nameSimilarity
               aiAnalysis :=
                 "File names are similar - this might be an updated version of \"" ++
                   existingFile.name ++ "\"" }
      else none
    (analysis, sortByScoreDesc similarFiles)

/-! ## Version history: `VersionHistory.loadVersions` and
`VersionHistory.handleRestore` -/

/-- A row of the `fileVersions` table, with the fields `loadVersions`
reads; `version_notes` is nullable in the store. -/
structure FileVersionRow where
  id : String
  version_label : String
  file_path : String
  file_size : Nat
  uploaded_by : String
  created_at : String
  version_notes : Option String
  is_current : String
deriving DecidableEq

/-- A row of the `files` table, with the fields `loadVersions` reads. -/
structure FileRootRow where
  id : String
  version_label : String
  file_path : String
  file_size : Nat
  uploaded_by : String
  created_at : String
  version_notes : Option String
  is_latest_version : String
deriving DecidableEq

/-- The component's `FileVersion` view record. -/
structure FileVersion where
  id : String
  version_label : String
  file_path : String
  file_size : Nat
  uploaded_by : String
  created_at : String
  version_notes : String
  is_current : String
deriving DecidableEq

/-- How `loadVersions` pushes a `fileVersions` row into `allVersions`
(`version.version_notes || ''`). -/
def toVersionEntry (v : FileVersionRow) : FileVersion :=
  { id := v.id
    version_label := v.version_label
    file_path := v.file_path
    file_size := v.file_size
    uploaded_by := v.uploaded_by
    created_at := v.created_at
    version_notes := v.version_notes.getD ""
    is_current := v.is_current }

/-- How `loadVersions` pushes a `files` row into `allVersions`
(`is_current := file.is_latest_version`). -/
def rootToVersionEntry (f : FileRootRow) : FileVersion :=
  { id := f.id
    version_label := f.version_label
    file_path := f.file_path
    file_size := f.file_size
    uploaded_by := f.uploaded_by
    created_at := f.created_at
    version_notes := f.version_notes.getD ""
    is_current := f.is_latest_version }

/-- `allVersions`: first every `fileVersions` row, then every `files` row,
in query order. -/
def mergedVersions (fileVersions : List FileVersionRow)
    (originalFile : List FileRootRow) : List FileVersion :=
  fileVersions.map toVersionEntry ++ originalFile.map rootToVersionEntry

/-- The duplicate-removal step of `loadVersions`:
`filter((version, index, self) => index === self.findIndex(v => v.id === version.id))`,
keeping an element exactly when its index is the first index carrying its
id. -/
def uniqueById (all : List FileVersion) : List FileVersion :=
  (all.enum.filter fun p => all.findIdx (fun v => v.id == p.2.id) == p.1).map Prod.snd

/-- The full result of `loadVersions`: merge, de-duplicate by id, then
sort by `created_at` descending.  `getTime` interprets a stored timestamp
string as `new Date(s).getTime()` does; the sort is the JS stable sort
under the comparator `(a, b) => getTime(b) - getTime(a)`. -/
def loadVersionsResult (getTime : String → Int) (fileVersions : List FileVersionRow)
    (originalFile : List FileRootRow) : List FileVersion :=
  (uniqueById (mergedVersions fileVersions originalFile)).mergeSort
    (fun a b => decide (getTime b.created_at ≤ getTime a.created_at))

/-- First write phase of `handleRestore`: every loaded version row is
updated with `is_current := "0"`. -/
def markAllNotCurrent (vs : List FileVersion) : List FileVersion :=
  vs.map fun v => { v with is_current := "0" }

/-- A `fileVersions.update(id, { is_current := flag })` call as it acts on
a row set: every row whose id matches is updated. -/
def updateIsCurrent (vs : List FileVersion) (targetId : String) (flag : String) :
    List FileVersion :=
  vs.map fun v => if v.id = targetId then { v with is_current := flag } else v

/-- The effect of `handleRestore` on the loaded version set: all rows to
`is_current = "0"`, then the chosen row to `"1"`. -/
def restoreVersions (vs : List FileVersion) (target : FileVersion) : List FileVersion :=
  updateIsCurrent (markAllNotCurrent vs) target.id "1"

/-- The root `files` row fields `handleRestore` writes. -/
structure MainFileRow where
  id : String
  version_label : String
  file_path : String
  file_size : Nat
  updated_at : String
deriving DecidableEq

/-- The `files.update(fileId, {...})` call of `handleRestore`: the root row
takes the restored version's label, path and size, plus a fresh
timestamp. -/
def restoreMainFile (f : MainFileRow) (version : FileVersion) (now : String) : MainFileRow :=
  { f with
    version_label := version.version_label
    file_path := version.file_path
    file_size := version.file_size
    updated_at := now }

/-! ## Content hash: `FileUpload.generateFileHash` -/

/-- The fields of the browser `File` object `generateFileHash` reads:
metadata plus the raw content bytes. -/
structure JsFile where
  name : String
  size : Nat
  lastModified : Int
  content : List Nat
deriving DecidableEq

/-- UTF-16 code units of a string, as JS `charCodeAt` enumerates them. -/
def utf16CodeUnits (s : String) : List Nat :=
  s.data.flatMap fun c =>
    let n := c.toNat
    if n < 0x10000 then [n]
    else [0xD800 + (n - 0x10000) / 0x400, 0xDC00 + (n - 0x10000) % 0x400]

/-- JS `ToInt32`: reduce an integer into `[-2^31, 2^31)`. -/
def toInt32 (n : Int) : Int := (n + 2 ^ 31) % 2 ^ 32 - 2 ^ 31

/-- One iteration of the hash loop:
`hash = ((hash << 5) - hash) + c; hash = hash & hash`.  The shift works on
32 bits (`toInt32 (h * 32)`), the subtraction and addition are exact in JS
doubles at these magnitudes, and `hash & hash` is `ToInt32`. -/
def hashStep (h : Int) (c : Nat) : Int := toInt32 (toInt32 (h * 32) - h + c)

/-- Hexadecimal rendering of a natural number, as JS
`Math.abs(hash).toString(16)` produces it (lowercase digits). -/
def natToHex (n : Nat) : String := String.mk (Nat.toDigits 16 n)

/-- `generateFileHash`: fold the hash over the UTF-16 units of
`file.name + file.size + file.lastModified`, then over the first
`min(bytes.length, 100)` bytes of the first 1000 content bytes
(`file.slice(0, 1000)`), and render the absolute value in hex. -/
def generateFileHash (f : JsFile) : String :=
  let str := f.name ++ toString f.size ++ toString f.lastModified
  let h1 := (utf16CodeUnits str).foldl hashStep 0
  let bytes := f.content.take 1000
  let h2 := (bytes.take (min bytes.length 100)).foldl hashStep h1
  natToHex h2.natAbs

/-! ## Theorems

First the Levenshtein development: the code's DP matrix computes the
standard Levenshtein distance of its two arguments (via a snoc recurrence,
reversal invariance and symmetry), from which the similarity claims
follow. -/

theorem lev_nil_left (ys : List Char) : lev [] ys = ys.length := by
  cases ys <;> simp [lev]

theorem lev_nil_right (xs : List Char) : lev xs [] = xs.length := by
  cases xs <;> simp [lev]

theorem lev_cons_cons (x y : Char) (xs ys : List Char) :
    lev (x :: xs) (y :: ys) =
      if x = y then lev xs ys
      else 1 + min (lev xs ys) (min (lev (x :: xs) ys) (lev xs (y :: ys))) := by
  simp [lev]

set_option maxHeartbeats 1000000 in
theorem lev_snoc_aux :
    ∀ (n : Nat) (xs ys : List Char), xs.length + ys.length ≤ n →
      ∀ a b : Char, lev (xs ++ [a]) (ys ++ [b]) =
        if a = b then lev xs ys
        else 1 + min (lev xs ys) (min (lev (xs ++ [a]) ys) (lev xs (ys ++ [b]))) := by
  intro n
  induction n with
  | zero =>
    intro xs ys h a b
    have hx : xs = [] := by cases xs <;> simp_all
    have hy : ys = [] := by cases ys <;> simp_all
    subst hx; subst hy
    simp only [List.nil_append]
    rw [lev_cons_cons]
  | succ n ih =>
    intro xs ys h a b
    match xs, ys with
    | [], [] =>
      simp only [List.nil_append]
      rw [lev_cons_cons]
    | [], y :: ys =>
      have h1 := ih [] ys (by simp at h ⊢; omega) a b
      simp only [List.nil_append] at h1 ⊢
      rw [List.cons_append]
      have e1 : lev [] (ys ++ [b]) = ys.length + 1 := by rw [lev_nil_left]; simp
      have e2 : lev [] (y :: (ys ++ [b])) = ys.length + 2 := by rw [lev_nil_left]; simp
      have e3 : lev [] (y :: ys) = ys.length + 1 := by rw [lev_nil_left]; simp
      have e4 : lev [] ys = ys.length := lev_nil_left ys
      rw [lev_cons_cons a y [] (ys ++ [b]), lev_cons_cons a y [] ys, h1]
      rw [e1, e2, e3, e4]
      rcases eq_or_ne a b with hab | hab
      · subst hab
        rcases eq_or_ne a y with hay | hay
        · subst hay
          simp only [eq_self_iff_true, if_true] <;> omega
        · simp only [eq_self_iff_true, if_true, if_neg hay] <;> omega
      · rcases eq_or_ne a y with hay | hay
        · subst hay
          simp only [eq_self_iff_true, if_true, if_neg hab] <;> omega
        · simp only [if_neg hab, if_neg hay] <;> omega
    | x :: xs, [] =>
      have h1 := ih xs [] (by simp at h ⊢; omega) a b
      simp only [List.nil_append] at h1 ⊢
      rw [List.cons_append]
      have e1 : lev (xs ++ [a]) [] = xs.length + 1 := by rw [lev_nil_right]; simp
      have e2 : lev (x :: (xs ++ [a])) [] = xs.length + 2 := by rw [lev_nil_right]; simp
      have e3 : lev (x :: xs) [] = xs.length + 1 := by rw [lev_nil_right]; simp
      have e4 : lev xs [] = xs.length := lev_nil_right xs
      rw [lev_cons_cons x b (xs ++ [a]) [], lev_cons_cons x b xs [], h1]
      rw [e1, e2, e3, e4]
      rcases eq_or_ne a b with hab | hab
      · subst hab
        rcases eq_or_ne x a with hxb | hxb
        · subst hxb
          simp only [eq_self_iff_true, if_true] <;> omega
        · simp only [eq_self_iff_true, if_true, if_neg hxb] <;> omega
      · rcases eq_or_ne x b with hxb | hxb
        · subst hxb
          simp only [eq_self_iff_true, if_true, if_neg hab] <;> omega
        · simp only [if_neg hab, if_neg hxb] <;> omega
    | x :: xs, y :: ys =>
      have h1 := ih xs ys (by simp at h ⊢; omega) a b
      have h2 := ih (x :: xs) ys (by simp at h ⊢; omega) a b
      have h3 := ih xs (y :: ys) (by simp at h ⊢; omega) a b
      simp only [List.cons_append] at h2 h3 ⊢
      rw [lev_cons_cons x y (xs ++ [a]) (ys ++ [b]), lev_cons_cons x y xs ys,
        lev_cons_cons x y (xs ++ [a]) ys, lev_cons_cons x y xs (ys ++ [b]), h1, h2, h3]
      rcases eq_or_ne x y with hxy | hxy
      · subst hxy
        rcases eq_or_ne a b with hab | hab
        · subst hab
          simp only [eq_self_iff_true, if_true]
        · simp only [eq_self_iff_true, if_true, if_neg hab]
      · rcases eq_or_ne a b with hab | hab
        · subst hab
          simp only [eq_self_iff_true, if_true, if_neg hxy]
        · simp only [if_neg hab, if_neg hxy]
          simp only [min_add_add_left]
          congr 2
          ac_rfl

theorem lev_snoc (xs ys : List Char) (a b : Char) :
    lev (xs ++ [a]) (ys ++ [b]) =
      if a = b then lev xs ys
      else 1 + min (lev xs ys) (min (lev (xs ++ [a]) ys) (lev xs (ys ++ [b]))) :=
  lev_snoc_aux (xs.length + ys.length) xs ys le_rfl a b

theorem lev_comm_aux :
    ∀ (n : Nat) (xs ys : List Char), xs.length + ys.length ≤ n →
      lev xs ys = lev ys xs := by
  intro n
  induction n with
  | zero =>
    intro xs ys h
    have hx : xs = [] := by cases xs <;> simp_all
    have hy : ys = [] := by cases ys <;> simp_all
    subst hx; subst hy; rfl
  | succ n ih =>
    intro xs ys h
    match xs, ys with
    | [], ys => rw [lev_nil_left, lev_nil_right]
    | x :: xs, [] => rw [lev_nil_left, lev_nil_right]
    | x :: xs, y :: ys =>
      have h1 := ih xs ys (by simp at h ⊢; omega)
      have h2 := ih (x :: xs) ys (by simp at h ⊢; omega)
      have h3 := ih xs (y :: ys) (by simp at h ⊢; omega)
      rw [lev_cons_cons x y, lev_cons_cons y x, h1, h2, h3]
      rcases eq_or_ne x y with hxy | hxy
      · subst hxy
        simp only [eq_self_iff_true, if_true]
      · rw [if_neg hxy, if_neg (Ne.symm hxy)]
        rw [min_comm (lev ys (x :: xs)) (lev (y :: ys) xs)]

theorem lev_comm (xs ys : List Char) : lev xs ys = lev ys xs :=
  lev_comm_aux (xs.length + ys.length) xs ys le_rfl

theorem lev_reverse_aux :
    ∀ (n : Nat) (xs ys : List Char), xs.length + ys.length ≤ n →
      lev xs.reverse ys.reverse = lev xs ys := by
  intro n
  induction n with
  | zero =>
    intro xs ys h
    have hx : xs = [] := by cases xs <;> simp_all
    have hy : ys = [] := by cases ys <;> simp_all
    subst hx; subst hy; rfl
  | succ n ih =>
    intro xs ys h
    match xs, ys with
    | [], ys => simp [lev_nil_left]
    | x :: xs, [] => simp [lev_nil_right]
    | x :: xs, y :: ys =>
      have h1 := ih xs ys (by simp at h ⊢; omega)
      have h2 := ih (x :: xs) ys (by simp at h ⊢; omega)
      have h3 := ih xs (y :: ys) (by simp at h ⊢; omega)
      rw [List.reverse_cons, List.reverse_cons, lev_snoc]
      rw [← List.reverse_cons x, ← List.reverse_cons y, h1, h2, h3]
      rw [lev_cons_cons]

theorem lev_reverse (xs ys : List Char) : lev xs.reverse ys.reverse = lev xs ys :=
  lev_reverse_aux (xs.length + ys.length) xs ys le_rfl

theorem lev_self (xs : List Char) : lev xs xs = 0 := by
  induction xs with
  | nil => rw [lev_nil_left]; rfl
  | cons x xs ih => rw [lev_cons_cons, if_pos rfl, ih]

theorem take_succ_reverse (l : List Char) (i : Nat) (h : i < l.length) (d : Char) :
    (l.take (i + 1)).reverse = l.getD i d :: (l.take i).reverse := by
  rw [List.take_succ]
  rw [List.getElem?_eq_getElem h]
  simp [List.getD_eq_getElem?_getD, List.getElem?_eq_getElem h]

theorem levCell_eq (s1 s2 : List Char) :
    ∀ i, i ≤ s2.length → ∀ j, j ≤ s1.length →
      levCell s1 s2 i j = lev ((s2.take i).reverse) ((s1.take j).reverse) := by
  intro i
  induction i with
  | zero =>
    intro _ j hj
    simp only [levCell, List.take_zero, List.reverse_nil, lev_nil_left]
    simp [List.length_take]
    omega
  | succ i ihi =>
    intro hi j
    induction j with
    | zero =>
      intro _
      simp only [levCell, List.take_zero, List.reverse_nil, lev_nil_right]
      simp [List.length_take]
      omega
    | succ j ihj =>
      intro hj
      have hi2 : i < s2.length := by omega
      have hj2 : j < s1.length := by omega
      simp only [levCell]
      rw [take_succ_reverse s2 i hi2 'a', take_succ_reverse s1 j hj2 'a', lev_cons_cons]
      rw [ihi (by omega) j (by omega)]
      rw [ihi (by omega) (j + 1) (by omega)]
      rw [ihj (by omega)]
      rw [take_succ_reverse s2 i hi2 'a', take_succ_reverse s1 j hj2 'a']
      by_cases hc : s2.getD i 'a' = s1.getD j 'a'
      · rw [if_pos hc, if_pos hc]
      · rw [if_neg hc, if_neg hc]
        omega

theorem levenshteinDistance_eq_lev (s1 s2 : String) :
    levenshteinDistance s1 s2 = lev s1.data s2.data := by
  unfold levenshteinDistance
  rw [levCell_eq s1.data s2.data s2.data.length le_rfl s1.data.length le_rfl]
  rw [List.take_length, List.take_length, lev_reverse, lev_comm]

theorem string_length_eq_data (s : String) : s.length = s.data.length := rfl

/-- C4: for every pair of strings, `calculateSimilarity(s1, s2)` equals
`(max(len1,len2) - editDistance(s1,s2)) / max(len1,len2)` where
`editDistance` is the standard Levenshtein distance (the code computes the
distance of `(longer, shorter)` through its DP matrix, which by the lemmas
above is the Levenshtein distance of `(s1, s2)`). -/
theorem calculateSimilarity_eq_spec (s1 s2 : String) :
    calculateSimilarity s1 s2 = similaritySpec s1 s2 := by
  unfold calculateSimilarity similaritySpec
  by_cases h : s1.length > s2.length
  · rw [if_pos h, if_pos h]
    show ((s1.length : ℚ) - (levenshteinDistance s1 s2 : ℚ)) / (s1.length : ℚ) = _
    rw [levenshteinDistance_eq_lev]
    have hmax : max s1.length s2.length = s1.length := Nat.max_eq_left (le_of_lt h)
    rw [← Nat.cast_max, hmax]
  · rw [if_neg h, if_neg h]
    show ((s2.length : ℚ) - (levenshteinDistance s2 s1 : ℚ)) / (s2.length : ℚ) = _
    rw [levenshteinDistance_eq_lev]
    have hmax : max s1.length s2.length = s2.length := Nat.max_eq_right (by omega)
    rw [← Nat.cast_max, hmax, lev_comm]

/-- C5 counterexample: the claim "calculateSimilarity(s, s) = 1.0 for
every string s, including the empty string" fails at `s = ""`: there the
code divides zero by zero (JS `NaN`, rational-model `0`), which is not
`1.0`. -/
theorem calculateSimilarity_empty_ne_one : calculateSimilarity "" "" ≠ 1 := by
  unfold calculateSimilarity
  norm_num

/-- C5 (amended): for every nonempty string `s`,
`calculateSimilarity(s, s) = 1.0`; at the empty string the code yields the
degenerate `0/0` instead. -/
theorem calculateSimilarity_self (s : String) (h : s ≠ "") :
    calculateSimilarity s s = 1 := by
  unfold calculateSimilarity
  rw [if_neg (lt_irrefl s.length)]
  show ((s.length : ℚ) - (levenshteinDistance s s : ℚ)) / (s.length : ℚ) = 1
  rw [levenshteinDistance_eq_lev, lev_self]
  have hd : s.data ≠ [] := fun hc => h (by cases s; simp_all)
  have hn : (s.length : ℚ) ≠ 0 := by
    rw [Nat.cast_ne_zero, string_length_eq_data]
    exact fun hc => hd (List.length_eq_zero.mp hc)
  push_cast
  rw [sub_zero, div_self hn]

theorem nextSeqLabel_shape (l : List GVFileRow) :
    ∃ s : Nat, nextSeqLabel l = "VT-" ++ pad2 s ++ "-v1.0.0" :=
  ⟨_, rfl⟩

theorem append_dot_one_ne_seq (p : String) (n : Nat) :
    p ++ ".1" ≠ "VT-" ++ pad2 n ++ "-v1.0.0" := by
  intro h
  have h2 := congrArg (fun s => s.data.getLast?) h
  simp only [String.data_append, List.getLast?_append] at h2
  have e1 : (".1".data).getLast? = some '1' := rfl
  have e2 : ("-v1.0.0".data).getLast? = some '0' := rfl
  rw [e1, e2] at h2
  simp at h2

/-- C3: for every stored version label with no `v(\d+).(\d+).(\d+)`
substring, the two increment implementations diverge:
`AISimilarityService.incrementVersion` returns the whole label with `".1"`
appended, while `FileUpload.generateVersionLabel` (given an existing file
carrying that label) falls through to the no-prior-file branch and returns
a fresh sequential `"VT-<seq:02d>-v1.0.0"` label; the two results are
always different strings. -/
theorem incrementImplementations_diverge
    (label : String) (t : IncrementType) (f : GVFileRow) (orgFiles : List GVFileRow)
    (hmatch : findVMatch label.data = none) (hlabel : f.version_label = label) :
    incrementVersion label t = label ++ ".1" ∧
    (∃ s : Nat, generateVersionLabel (some f) orgFiles = "VT-" ++ pad2 s ++ "-v1.0.0") ∧
    incrementVersion label t ≠ generateVersionLabel (some f) orgFiles := by
  have ha : incrementVersion label t = label ++ ".1" := by
    unfold incrementVersion
    rw [hmatch]
  have hb : generateVersionLabel (some f) orgFiles = nextSeqLabel orgFiles := by
    simp only [generateVersionLabel, hlabel, hmatch]
  obtain ⟨s, hs⟩ := nextSeqLabel_shape orgFiles
  refine ⟨ha, ⟨s, hb.trans hs⟩, ?_⟩
  rw [ha, hb, hs]
  exact append_dot_one_ne_seq label s

/-- C2: the version-increment function satisfies
`increment("VT-01-v1.0.0", patch) = "VT-01-v1.0.1"` and
`increment("VT-01-v1.9.9", minor) = "VT-01-v1.10.0"`
(`AISimilarityService.incrementVersion`). -/
theorem incrementVersion_examples :
    incrementVersion "VT-01-v1.0.0" IncrementType.patch = "VT-01-v1.0.1" ∧
    incrementVersion "VT-01-v1.9.9" IncrementType.minor = "VT-01-v1.10.0" := by
  constructor <;> decide

theorem fixed2String_three_halves : fixed2String (3 / 2 : ℚ) = "1.5" := by
  have h : ⌊(3 / 2 : ℚ) * 100 + 1 / 2⌋ = (150 : ℤ) := by norm_num
  unfold fixed2String
  rw [h]
  decide

theorem formatFileSizeUpload_1536 : formatFileSizeUpload 1536 = "1.5 KB" := by
  have hl : logFloor 1024 1536 = 1 := by decide
  unfold formatFileSizeUpload
  rw [if_neg (by decide : ¬(1536 = 0))]
  show fixed2String ((1536 : ℕ) / (1024 : ℚ) ^ logFloor 1024 1536) ++ " " ++
    sizesAt (logFloor 1024 1536) = "1.5 KB"
  rw [hl]
  have hq : ((1536 : ℕ) : ℚ) / (1024 : ℚ) ^ (1 : ℕ) = 3 / 2 := by norm_num
  rw [hq, fixed2String_three_halves]
  decide

theorem formatFileSizeHistory_1536 : formatFileSizeHistory 1536 = "1.5 KB" := by
  have hl : logFloor 1024 1536 = 1 := by decide
  unfold formatFileSizeHistory
  rw [if_neg (by decide : ¬(1536 = 0))]
  show fixed2String ((1536 : ℕ) / (1024 : ℚ) ^ logFloor 1024 1536) ++ " " ++
    sizesAt (logFloor 1024 1536) = "1.5 KB"
  rw [hl]
  have hq : ((1536 : ℕ) : ℚ) / (1024 : ℚ) ^ (1 : ℕ) = 3 / 2 := by norm_num
  rw [hq, fixed2String_three_halves]
  decide

theorem formatFileSizeDashboard_1536 :
    formatFileSizeDashboard (JSVal.num 1536) = "1.5 KB" := by
  have hi : qLogFloor 1024 (1536 : ℚ) = 1 := by
    unfold qLogFloor
    rw [if_pos (by norm_num : (1 : ℚ) ≤ 1536)]
    have h36 : ⌊(1536 : ℚ)⌋ = (1536 : ℤ) := by norm_num
    rw [h36]
    decide
  have hq : (1536 : ℚ) / (1024 : ℚ) ^ (1 : ℤ) = 3 / 2 := by norm_num
  unfold formatFileSizeDashboard
  rw [if_neg (by simp [jsNumber])]
  simp only [jsNumber]
  rw [if_neg (by norm_num : ¬((1536 : ℚ) = 0)), if_neg (by norm_num : ¬((1536 : ℚ) < 0))]
  show fixed2String ((1536 : ℚ) / (1024 : ℚ) ^ qLogFloor 1024 (1536 : ℚ)) ++ " " ++
    (if 0 ≤ qLogFloor 1024 (1536 : ℚ) then sizesAt (qLogFloor 1024 (1536 : ℚ)).toNat
     else "undefined") = "1.5 KB"
  rw [hi, hq, fixed2String_three_halves]
  decide

theorem formatFileSize_examples :
    formatFileSizeUpload 0 = "0 Bytes" ∧ formatFileSizeUpload 1536 = "1.5 KB" ∧
    formatFileSizeHistory 0 = "0 Bytes" ∧ formatFileSizeHistory 1536 = "1.5 KB" ∧
    formatFileSizeDashboard (JSVal.num 0) = "0 Bytes" ∧
    formatFileSizeDashboard (JSVal.num 1536) = "1.5 KB" :=
  ⟨rfl, formatFileSizeUpload_1536, rfl, formatFileSizeHistory_1536,
    by unfold formatFileSizeDashboard
       rw [if_neg (by simp [jsNumber])]
       simp only [jsNumber]
       simp,
    formatFileSizeDashboard_1536⟩

/-- C10: the Dashboard `formatFileSize` variant returns `"0 Bytes"` for
every null, undefined, empty-string or non-numeric input — non-numeric
meaning `Number(s)` is `NaN` under the ECMAScript string-to-number
grammar — so malformed `file_size` values never reach the numeric
rendering path. -/
theorem formatFileSizeDashboard_badInput (v : JSVal)
    (h : v = JSVal.null ∨ v = JSVal.undef ∨ v = JSVal.str "" ∨
      (∃ s, v = JSVal.str s ∧ jsStringToNumber s = JsNum.nan)) :
    formatFileSizeDashboard v = "0 Bytes" := by
  unfold formatFileSizeDashboard
  rcases h with h | h | h | ⟨s, rfl, hs⟩
  · subst h; rw [if_pos (Or.inl rfl)]
  · subst h; rw [if_pos (Or.inr (Or.inl rfl))]
  · subst h; rw [if_pos (Or.inr (Or.inr (Or.inl rfl)))]
  · rw [if_pos (Or.inr (Or.inr (Or.inr (by simp [jsNumber, hs]))))]

theorem formatFileSizeDashboard_badInput_witness :
    jsStringToNumber "x1y" = JsNum.nan ∧
    formatFileSizeDashboard (JSVal.str "x1y") = "0 Bytes" :=
  ⟨by decide,
    formatFileSizeDashboard_badInput (JSVal.str "x1y")
      (Or.inr (Or.inr (Or.inr ⟨"x1y", rfl, by decide⟩)))⟩

/-- The string classification the Dashboard guard reads is that of JS
`isNaN(Number(s))`: exponent, whitespace-padded, hex and `Infinity`
strings are numeric (so the guard passes them on), while a string that
fits none of the grammar's productions is `NaN`. -/
theorem jsStringToNumber_classification :
    jsStringToNumber "1e3" ≠ JsNum.nan ∧
    jsStringToNumber " 12" ≠ JsNum.nan ∧
    jsStringToNumber "0x10" ≠ JsNum.nan ∧
    jsStringToNumber "Infinity" = JsNum.posInf ∧
    jsStringToNumber "-Infinity" = JsNum.negInf ∧
    jsStringToNumber "" = JsNum.finite 0 ∧
    jsStringToNumber "12abc" = JsNum.nan ∧
    jsStringToNumber "x1y" = JsNum.nan := by
  decide

theorem restoreVersions_eq_map (vs : List FileVersion) (target : FileVersion) :
    restoreVersions vs target = vs.map fun v =>
      if v.id = target.id then { v with is_current := "1" }
      else { v with is_current := "0" } := by
  unfold restoreVersions updateIsCurrent markAllNotCurrent
  rw [List.map_map]
  apply List.map_congr_left
  intro v _
  by_cases h : v.id = target.id
  · simp [h]
  · simp [h]

/-- C1: after `handleRestore` completes for a chosen version `v1`, in a
loaded version set where `v1` has `is_current = "0"`, some other version
`v2` has `is_current = "1"`, and ids are unique (as `loadVersions`
guarantees), exactly one version of the set has `is_current = "1"` —
namely the one with `v1`'s id — and the root `files` row's
`version_label` equals `v1`'s label. -/
theorem handleRestore_exactly_one_current
    (vs : List FileVersion) (f : MainFileRow) (v1 v2 : FileVersion) (now : String)
    (hm1 : v1 ∈ vs) (hm2 : v2 ∈ vs)
    (hids : (vs.map FileVersion.id).Nodup)
    (hv1 : v1.is_current = "0") (hv2 : v2.is_current = "1") (hne : v1.id ≠ v2.id) :
    (restoreVersions vs v1).countP (fun v => v.is_current == "1") = 1 ∧
    (∀ v ∈ restoreVersions vs v1, v.is_current = "1" → v.id = v1.id) ∧
    (restoreMainFile f v1 now).version_label = v1.version_label := by
  refine ⟨?_, ?_, rfl⟩
  · rw [restoreVersions_eq_map, List.countP_map]
    have hcongr : List.countP
        ((fun v => v.is_current == "1") ∘ fun v =>
          if v.id = v1.id then { v with is_current := "1" }
          else { v with is_current := "0" }) vs =
        List.countP (fun v => v.id == v1.id) vs := by
      apply List.countP_congr
      intro v _
      by_cases h : v.id = v1.id
      · simp [h]
      · simp [h]
    rw [hcongr]
    have hmap : List.countP (fun v => v.id == v1.id) vs =
        List.count v1.id (vs.map FileVersion.id) := by
      rw [List.count, List.countP_map]
      rfl
    rw [hmap]
    exact List.count_eq_one_of_mem hids (List.mem_map_of_mem FileVersion.id hm1)
  · intro v hv hcur
    rw [restoreVersions_eq_map] at hv
    obtain ⟨u, hu, rfl⟩ := List.mem_map.mp hv
    by_cases h : u.id = v1.id
    · rw [if_pos h]
      exact h
    · rw [if_neg h] at hcur ⊢
      have hzero : ("0" : String) = "1" := hcur
      exact absurd hzero (by decide)

theorem handleRestore_witness :
    let v1 : FileVersion := ⟨"v1", "VT-01-v1.0.0", "p1", 10, "u", "t1", "", "0"⟩
    let v2 : FileVersion := ⟨"v2", "VT-01-v1.0.1", "p2", 20, "u", "t2", "", "1"⟩
    let f : MainFileRow := ⟨"file1", "VT-01-v1.0.1", "p2", 20, "t2"⟩
    (restoreVersions [v1, v2] v1).countP (fun v => v.is_current == "1") = 1 ∧
    (∀ v ∈ restoreVersions [v1, v2] v1, v.is_current = "1" → v.id = v1.id) ∧
    (restoreMainFile f v1 "now").version_label = v1.version_label :=
  handleRestore_exactly_one_current [_, _] _ _ _ "now"
    (List.mem_cons_self _ _) (List.mem_cons_of_mem _ (List.mem_cons_self _ _))
    (by decide) rfl rfl (by decide)

theorem pairwise_fst_lt_enumFrom {α : Type} (l : List α) :
    ∀ k : Nat, (l.enumFrom k).Pairwise (fun p q => p.1 < q.1) := by
  induction l with
  | nil => intro k; simp
  | cons x l ih =>
    intro k
    rw [List.enumFrom_cons]
    refine List.Pairwise.cons ?_ (ih (k + 1))
    intro q hq
    have hb := List.mem_enumFrom (x := q.2) (i := q.1) (j := k + 1) (by simpa using hq)
    omega

theorem pairwise_fst_lt_enum {α : Type} (l : List α) :
    l.enum.Pairwise (fun p q => p.1 < q.1) :=
  pairwise_fst_lt_enumFrom l 0

theorem uniqueById_pairwise (all : List FileVersion) :
    (uniqueById all).Pairwise (fun a b => a.id ≠ b.id) := by
  unfold uniqueById
  rw [List.pairwise_map]
  have hp : (all.enum.filter fun p =>
      all.findIdx (fun v => v.id == p.2.id) == p.1).Pairwise (fun p q => p.1 < q.1) :=
    (pairwise_fst_lt_enum all).filter _
  refine hp.imp_of_mem ?_
  intro p q hpmem hqmem hlt heq
  have hpidx : all.findIdx (fun v => v.id == p.2.id) = p.1 := by
    have := (List.mem_filter.mp hpmem).2
    simpa using this
  have hqidx : all.findIdx (fun v => v.id == q.2.id) = q.1 := by
    have := (List.mem_filter.mp hqmem).2
    simpa using this
  rw [heq, hqidx] at hpidx
  omega

/-- C7: for every pair of input lists of `fileVersions` rows and `files`
root rows — including lists with overlapping ids — the merged version list
produced by `loadVersions` contains no two entries with the same id. -/
theorem loadVersions_unique_ids (getTime : String → Int)
    (fileVersions : List FileVersionRow) (originalFile : List FileRootRow) :
    (loadVersionsResult getTime fileVersions originalFile).Pairwise
      (fun a b => a.id ≠ b.id) := by
  unfold loadVersionsResult
  have hperm := List.mergeSort_perm (uniqueById (mergedVersions fileVersions originalFile))
    (fun a b => decide (getTime b.created_at ≤ getTime a.created_at))
  exact (hperm.pairwise_iff fun h heq => h heq.symm).mpr
    (uniqueById_pairwise (mergedVersions fileVersions originalFile))

theorem take_min_length_take (l : List Nat) :
    (l.take 1000).take (min (l.take 1000).length 100) = l.take 100 := by
  have h1 : (l.take 1000).take (min (l.take 1000).length 100) =
      (l.take 1000).take 100 := by
    rcases le_total (l.take 1000).length 100 with h | h
    · rw [min_eq_left h, List.take_of_length_le le_rfl, List.take_of_length_le h]
    · rw [min_eq_right h]
  rw [h1, List.take_take]
  norm_num

/-- C8: the content hash of `generateFileHash` depends only on the file's
name, size, lastModified timestamp and the first `min(100, length)`
content bytes: two files agreeing on all four produce the identical hash
string even when their contents differ beyond byte 100. -/
theorem generateFileHash_first100 (f1 f2 : JsFile)
    (hn : f1.name = f2.name) (hs : f1.size = f2.size)
    (hm : f1.lastModified = f2.lastModified)
    (hc : f1.content.take 100 = f2.content.take 100) :
    generateFileHash f1 = generateFileHash f2 := by
  unfold generateFileHash
  show natToHex (((f1.content.take 1000).take (min (f1.content.take 1000).length 100)).foldl
      hashStep ((utf16CodeUnits (f1.name ++ toString f1.size ++ toString f1.lastModified)).foldl
        hashStep 0)).natAbs =
    natToHex (((f2.content.take 1000).take (min (f2.content.take 1000).length 100)).foldl
      hashStep ((utf16CodeUnits (f2.name ++ toString f2.size ++ toString f2.lastModified)).foldl
        hashStep 0)).natAbs
  rw [take_min_length_take, take_min_length_take, hn, hs, hm, hc]

theorem generateFileHash_first100_witness :
    let f1 : JsFile := ⟨"a.txt", 150, 7, List.replicate 150 1⟩
    let f2 : JsFile := ⟨"a.txt", 150, 7, List.replicate 100 1 ++ List.replicate 50 2⟩
    f1.content ≠ f2.content ∧
    f1.content.take 100 = f2.content.take 100 ∧
    generateFileHash f1 = generateFileHash f2 :=
  ⟨by decide, by decide,
    generateFileHash_first100 _ _ rfl rfl rfl (by decide)⟩

/-- C6: when a remote call made during similarity analysis fails, both
similarity code paths (`AISimilarityService.findSimilarFiles` and
`FileUpload.analyzeAndFindSimilarFiles`) catch the error and return an
empty similar-files list — the same value they return when no similar
files exist (empty organization), so the two outcomes are
indistinguishable to a caller. -/
theorem similarity_failures_swallowed
    (e e2 e3 : String) (aiResult : Except String (List AISimilarityEntry))
    (dbResult : Except String (List DbFileRow)) (file : UploadFileMeta) :
    findSimilarFiles (Except.error e) aiResult = [] ∧
    findSimilarFiles dbResult (Except.error e2) = [] ∧
    (analyzeAndFindSimilarFiles file (Except.error e3)).2 = [] ∧
    findSimilarFiles (Except.ok []) aiResult = [] ∧
    (analyzeAndFindSimilarFiles file (Except.ok [])).2 = [] := by
  refine ⟨rfl, ?_, rfl, rfl, by simp [analyzeAndFindSimilarFiles, sortByScoreDesc]⟩
  cases dbResult with
  | error _ => rfl
  | ok l =>
    by_cases hl : l.length = 0
    · simp [findSimilarFiles, hl]
    · simp [findSimilarFiles, hl]

theorem incrementImplementations_diverge_witness :
    findVMatch "Policy Rev B".data = none ∧
    (incrementVersion "Policy Rev B" IncrementType.patch = "Policy Rev B" ++ ".1" ∧
      (∃ s : Nat, generateVersionLabel (some ⟨"f1", "Policy Rev B", some 4⟩) [] =
        "VT-" ++ pad2 s ++ "-v1.0.0") ∧
      incrementVersion "Policy Rev B" IncrementType.patch ≠
        generateVersionLabel (some ⟨"f1", "Policy Rev B", some 4⟩) []) :=
  ⟨by decide,
    incrementImplementations_diverge "Policy Rev B" IncrementType.patch
      ⟨"f1", "Policy Rev B", some 4⟩ [] (by decide) rfl⟩

theorem calculateSimilarity_self_witness :
    ("abc" : String) ≠ "" ∧ calculateSimilarity "abc" "abc" = 1 :=
  ⟨by decide, calculateSimilarity_self "abc" (by decide)⟩
